import Mathlib

/-!
Formal model of `hidden_prototype.main.forge_and_run`

A shallow embedding of the single MCP tool `forge_and_run` from
`src/hidden_prototype/main.py`.  The tool sanitizes a purpose string,
derives a per-call workspace directory under a fixed root, writes the
code argument to `script.py`, locates the external `uv` runner, executes
the script through it with a `PROTOTYPE_OUTPUT_DIR` environment variable
and a 180 second timeout, and renders a textual report.

External effects are made explicit:
* the filesystem is a pair (set of directories, map of file paths to
  contents), paths being lists of components from the filesystem root;
* `datetime.now()` is a `DateTime` argument and `strftime` is modelled
  by zero-padded decimal rendering;
* `shutil.which("uv")` is an `Option String` argument;
* the behaviour of the spawned subprocess (its outcome and the files it
  writes while running) is a `ScriptBehavior` argument.
-/

namespace HiddenPrototype

/-! ## Purpose sanitization

`safe_purpose = "".join(c for c in purpose if c.isalnum() or c in (" ", "_"))`
`               .replace(" ", "_")[:30]`

`Char.isAlphanum` models Python's `str.isalnum` on the ASCII range (the
characters all claims are concerned with); Python additionally accepts
further Unicode letters and digits, none of which are path separators
or dots. -/

/-- A character kept by the generator filter in `safe_purpose`:
alphanumeric, space or underscore. -/
def allowedChar (c : Char) : Bool :=
  c.isAlphanum || c == ' ' || c == '_'

/-- Source `safe_purpose`: filter to allowed characters, turn
spaces into underscores, truncate to 30 characters. -/
def safePurposeOf (purpose : String) : String :=
  ⟨(((purpose.data.filter allowedChar).map
      (fun c => if c == ' ' then '_' else c)).take 30)⟩

/-! ## Decimal rendering and timestamps

`datetime.now().strftime("%Y%m%d_%H%M%S")`: each field is rendered in
decimal, zero-padded (`%Y` to four digits, the others to two). -/

/-- The decimal digit character for `n % 10`. -/
def digitChar (n : Nat) : Char :=
  Char.ofNat (48 + n % 10)

/-- Decimal digits of `n`, most significant first; structural recursion
on a fuel bound so the kernel can evaluate it. -/
def decCharsCore : Nat → Nat → List Char
  | 0, _ => []
  | fuel + 1, n =>
    if n < 10 then [digitChar n]
    else decCharsCore fuel (n / 10) ++ [digitChar n]

/-- Decimal digits of `n`, most significant first. -/
def decChars (n : Nat) : List Char :=
  decCharsCore (n + 1) n

/-- Decimal rendering of `n`, zero-padded on the left to `width` characters. -/
def padNum (width n : Nat) : String :=
  ⟨List.replicate (width - (decChars n).length) '0' ++ decChars n⟩

/-- A wall-clock instant at second resolution, the granularity of the
workspace timestamp. -/
structure DateTime where
  year : Nat
  month : Nat
  day : Nat
  hour : Nat
  minute : Nat
  second : Nat
deriving DecidableEq, Repr

/-- Rendering `strftime("%Y%m%d_%H%M%S")` of a `DateTime`. -/
def timestampOf (t : DateTime) : String :=
  padNum 4 t.year ++ padNum 2 t.month ++ padNum 2 t.day ++ "_" ++
    padNum 2 t.hour ++ padNum 2 t.minute ++ padNum 2 t.second

/-! ## Paths

A path is the list of its components from the filesystem root; all
paths in play are absolute (`PROTO_ROOT` is `resolve()`d).  `pathlib`'s
`/` operator parses its string operand: it splits on separators,
drops empty components, and an absolute operand replaces the base. -/

/-- A filesystem path as its list of components from the root. -/
abbrev FsPath := List String

/-- Split a character list into groups at `/` characters (groups may be
empty; `pathlib` drops the empty ones). -/
def splitSlash : List Char → List (List Char)
  | [] => [[]]
  | c :: rest =>
    if c = '/' then [] :: splitSlash rest
    else
      match splitSlash rest with
      | [] => [[c]]
      | g :: gs => (c :: g) :: gs

/-- The non-empty components of a path string. -/
def pathComponents (s : String) : List String :=
  ((splitSlash s.data).filter (· ≠ [])).map (fun g => (⟨g⟩ : String))

/-- Join `base / s` for a `pathlib` path `base` and string `s`: an absolute
`s` (one beginning with the separator) replaces `base`, otherwise its
components are appended. -/
def pyJoin (base : FsPath) (s : String) : FsPath :=
  if s.data.head? = some '/' then pathComponents s
  else base ++ pathComponents s

/-- Rendering of an absolute path, as `str()` of a `pathlib` path. -/
def pathToString (p : FsPath) : String :=
  "/" ++ String.intercalate "/" p

/-- Root `PROTO_ROOT = (Path.home() / ".hidden_prototype").resolve()`,
parameterized by the home directory. -/
def protoRoot (home : FsPath) : FsPath :=
  home ++ [".hidden_prototype"]

/-- The per-call workspace directory name `f"{timestamp}_{safe_purpose}"`. -/
def workspaceName (now : DateTime) (purpose : String) : String :=
  timestampOf now ++ "_" ++ safePurposeOf purpose

/-- Workspace `proto_dir = PROTO_ROOT` joined with the workspace name. -/
def protoDirOf (home : FsPath) (now : DateTime) (purpose : String) : FsPath :=
  pyJoin (protoRoot home) (workspaceName now purpose)

/-- Directory `output_dir = proto_dir / "outputs"`. -/
def outputDirOf (home : FsPath) (now : DateTime) (purpose : String) : FsPath :=
  pyJoin (protoDirOf home now purpose) "outputs"

/-- Path `script_path = (proto_dir / "script.py").resolve()`. -/
def scriptPathOf (home : FsPath) (now : DateTime) (purpose : String) : FsPath :=
  pyJoin (protoDirOf home now purpose) "script.py"

/-- Join `"\n".join(lines)` of the report lines. -/
def joinLines : List String → String
  | [] => ""
  | [l] => l
  | l :: ls => l ++ "\n" ++ joinLines ls

/-- Substring occurrence: `sub in s` in Python terms. -/
def strContains (s sub : String) : Prop :=
  sub.data <:+: s.data

instance (s sub : String) : Decidable (strContains s sub) :=
  List.decidableInfix sub.data s.data

/-! ## Filesystem state -/

/-- Filesystem state: the set of existing directories and the map from
file paths to contents, each as an association list. -/
structure FS where
  dirs : List FsPath
  files : List (FsPath × String)
deriving Repr

/-- All non-empty prefixes of a path: the path and its ancestors. -/
def ancestors (p : FsPath) : List FsPath :=
  (List.range p.length).map (fun i => p.take (i + 1))

/-- Creation `Path.mkdir(parents=True, exist_ok=True)`: ensure the directory and
every ancestor exists; never fails. -/
def mkdirP (fs : FS) (p : FsPath) : FS :=
  { fs with dirs := fs.dirs ++ (ancestors p).filter (fun q => q ∉ fs.dirs) }

/-- Creation `Path.mkdir(parents=True, exist_ok=existOk)`: with `existOk = false`
an existing target directory raises `FileExistsError`, modelled as
`none`. -/
def mkdirChecked (fs : FS) (p : FsPath) (existOk : Bool) : Option FS :=
  if p ∈ fs.dirs ∧ existOk = false then none else some (mkdirP fs p)

/-- Write `open(path, "w").write(content)`: create or overwrite the file. -/
def writeFile (fs : FS) (p : FsPath) (content : String) : FS :=
  { fs with files := (p, content) :: fs.files.filter (fun e => e.1 ≠ p) }

/-- Contents of the file at `p`, if present. -/
def readFile (fs : FS) (p : FsPath) : Option String :=
  (fs.files.find? (fun e => e.1 = p)).map Prod.snd

/-- Names of the direct entries (files and subdirectories) of directory
`d`, as enumerated by `d.glob("*")`: one level deep, `fnmatch` pattern
`*` matching every name. -/
def listDirNames (fs : FS) (d : FsPath) : List String :=
  ((fs.files.map Prod.fst ++ fs.dirs).filterMap
    (fun p => if p.take d.length = d ∧ p.length = d.length + 1
              then p.getLast? else none)).dedup

/-! ## Environment and subprocess -/

/-- A process environment: ordered key-value bindings, as a `dict`. -/
abbrev Env := List (String × String)

/-- Update `env[k] = v` on a `dict`: replace the value in place if the key is
bound, append the binding otherwise. -/
def envSet : Env → String → String → Env
  | [], k, v => [(k, v)]
  | (k', v') :: rest, k, v =>
    if k' = k then (k, v) :: rest else (k', v') :: envSet rest k v

/-- First value bound to `k`. -/
def envGet (e : Env) (k : String) : Option String :=
  (e.find? (fun b => b.1 = k)).map Prod.snd

/-- How the `subprocess.run` call ends: the process completes within the
timeout with an exit code and captured streams, the 180 s timeout
expires (`TimeoutExpired`), or some other exception is raised. -/
inductive RunOutcome where
  | completed (returncode : Int) (stdout stderr : String)
  | timedOut
  | raised (msg : String)
deriving Repr, DecidableEq

/-- Observable behaviour of the executed script: the outcome of the
`subprocess.run` call together with the directories it created and the
files it wrote (applied when the process actually ran, i.e. on
completion or timeout). -/
structure ScriptBehavior where
  outcome : RunOutcome
  mkdirs : List FsPath
  writes : List (FsPath × String)
deriving Repr

/-- Filesystem effect of the executed script. -/
def applyScriptFx (fs : FS) (beh : ScriptBehavior) : FS :=
  beh.writes.foldl (fun s w => writeFile s w.1 w.2) (beh.mkdirs.foldl mkdirP fs)

/-- The parameters of the one `subprocess.run` invocation: argument
vector, environment, working directory and timeout in seconds. -/
structure ChildCall where
  argv : List String
  env : Env
  cwd : FsPath
  timeoutSeconds : Nat
deriving Repr

/-- What a call to `forge_and_run` leaves behind: the filesystem, the
subprocess invocation if one was attempted, and the returned string. -/
structure ForgeResult where
  fs : FS
  call : Option ChildCall
  reply : String
deriving Repr

/-! ## The tool -/

/-- Fixed reply `"❌ Error: 'uv' executable not found in PATH."`. -/
def uvNotFoundError : String :=
  "❌ Error: \x27uv\x27 executable not found in PATH."

/-- Fixed reply `"❌ Error: Execution timed out (180s)."`. -/
def timeoutError : String :=
  "❌ Error: Execution timed out (180s)."

/-- Rendering `repr` of a Python list of strings, as interpolated into the
artifact line (names here contain no characters `repr` would escape). -/
def pyStrListRepr (xs : List String) : String :=
  "[" ++ String.intercalate ", " (xs.map (fun s => "\x27" ++ s ++ "\x27")) ++ "]"

/-- The status line of the report: `Success` on exit code 0, otherwise
`Failed` with the literal exit code. -/
def statusLine (rc : Int) : String :=
  "📊 Status: " ++ (if rc = 0 then "Success"
                    else "Failed (Exit Code: " ++ toString rc ++ ")")

/-- The artifact-listing line of the report. -/
def artifactLine (artifacts : List String) : String :=
  "\n📁 Generated Artifacts in outputs/: " ++ pyStrListRepr artifacts

/-- The `report` list assembled on the completed path: header, status
line, standard-output block, then conditionally the standard-error
block and the artifact listing. -/
def reportLines (proto_dir : FsPath) (rc : Int) (out err : String)
    (artifacts : List String) : List String :=
  let base : List String :=
    ["🚀 Prototype Directory Created: " ++ pathToString proto_dir,
     statusLine rc,
     "\n[Standard Output]",
     if out = "" then "(No output)" else out]
  let withErr := if err ≠ "" then base ++ ["\n[Standard Error]\n" ++ err] else base
  if artifacts ≠ [] then withErr ++ [artifactLine artifacts] else withErr

/-- The tool `forge_and_run(code, purpose)`.  Explicit parameters for
the ambient effects: `home` fixes `PROTO_ROOT`, `now` is
`datetime.now()`, `environ` is `os.environ`, `uvPath` is
`shutil.which("uv")`, `beh` is the behaviour of the spawned subprocess,
and `fs0` the filesystem on entry. -/
def forge_and_run (home : FsPath) (now : DateTime) (environ : Env)
    (uvPath : Option String) (beh : ScriptBehavior)
    (code purpose : String) (fs0 : FS) : ForgeResult :=
  let proto_dir := protoDirOf home now purpose
  let output_dir := outputDirOf home now purpose
  let fs1 := mkdirP fs0 proto_dir
  let fs2 := mkdirP fs1 output_dir
  let script_path := scriptPathOf home now purpose
  let fs3 := writeFile fs2 script_path code
  match uvPath with
  | none => { fs := fs3, call := none, reply := uvNotFoundError }
  | some uv =>
    let env := envSet environ "PROTOTYPE_OUTPUT_DIR" (pathToString output_dir)
    let call : ChildCall :=
      { argv := [uv, "run", pathToString script_path], env := env,
        cwd := proto_dir, timeoutSeconds := 180 }
    let fs4 := applyScriptFx fs3 beh
    match beh.outcome with
    | .timedOut => { fs := fs4, call := some call, reply := timeoutError }
    | .raised msg =>
      { fs := fs4, call := some call, reply := "❌ System Error: " ++ msg }
    | .completed rc out err =>
      let artifacts := listDirNames fs4 output_dir
      { fs := fs4, call := some call,
        reply := joinLines (reportLines proto_dir rc out err artifacts) }

/-! ## Character and path-shape lemmas -/

lemma digitChar_isDigit (n : Nat) : (digitChar n).isDigit = true := by
  unfold digitChar
  have h : n % 10 < 10 := Nat.mod_lt _ (by omega)
  generalize n % 10 = m at h ⊢
  interval_cases m <;> decide

lemma decCharsCore_digits (fuel : Nat) :
    ∀ n, ∀ c ∈ decCharsCore fuel n, c.isDigit = true := by
  induction fuel with
  | zero => intro n c hc; cases hc
  | succ fuel ih =>
    intro n c hc
    rw [decCharsCore] at hc
    split at hc
    · rcases List.mem_singleton.mp hc with rfl
      exact digitChar_isDigit n
    · rcases List.mem_append.mp hc with hl | hr
      · exact ih (n / 10) c hl
      · rcases List.mem_singleton.mp hr with rfl
        exact digitChar_isDigit n

lemma decChars_digits (n : Nat) : ∀ c ∈ decChars n, c.isDigit = true :=
  decCharsCore_digits (n + 1) n

lemma padNum_digits (w n : Nat) : ∀ c ∈ (padNum w n).data, c.isDigit = true := by
  intro c hc
  unfold padNum at hc
  rcases List.mem_append.mp hc with hrep | hdec
  · rcases List.eq_of_mem_replicate hrep with rfl
    decide
  · exact decChars_digits n c hdec

lemma timestampOf_chars (t : DateTime) :
    ∀ c ∈ (timestampOf t).data, c.isDigit = true ∨ c = '_' := by
  intro c hc
  unfold timestampOf at hc
  simp only [String.data_append] at hc
  rcases List.mem_append.mp hc with hc | hc
  rotate_left
  · exact Or.inl (padNum_digits 2 t.second c hc)
  rcases List.mem_append.mp hc with hc | hc
  rotate_left
  · exact Or.inl (padNum_digits 2 t.minute c hc)
  rcases List.mem_append.mp hc with hc | hc
  rotate_left
  · exact Or.inl (padNum_digits 2 t.hour c hc)
  rcases List.mem_append.mp hc with hc | hc
  rotate_left
  · right
    simpa using hc
  rcases List.mem_append.mp hc with hc | hc
  rotate_left
  · exact Or.inl (padNum_digits 2 t.day c hc)
  rcases List.mem_append.mp hc with hc | hc
  · exact Or.inl (padNum_digits 4 t.year c hc)
  · exact Or.inl (padNum_digits 2 t.month c hc)

lemma safePurposeOf_chars (p : String) :
    ∀ c ∈ (safePurposeOf p).data, c.isAlphanum = true ∨ c = '_' := by
  intro c hc
  unfold safePurposeOf at hc
  have hc' := List.mem_of_mem_take hc
  rcases List.mem_map.mp hc' with ⟨a, ha, rfl⟩
  have hall : allowedChar a = true := List.of_mem_filter ha
  unfold allowedChar at hall
  by_cases hsp : a = ' '
  · subst hsp; simp
  · simp only [Bool.or_eq_true, beq_iff_eq] at hall
    rcases hall with (halnum | rfl) | rfl
    · left
      simpa [hsp] using halnum
    · exact absurd rfl hsp
    · simp

lemma workspaceName_chars (now : DateTime) (p : String) :
    ∀ c ∈ (workspaceName now p).data, c.isAlphanum = true ∨ c = '_' := by
  intro c hc
  unfold workspaceName at hc
  simp only [String.data_append] at hc
  rcases List.mem_append.mp hc with hc | hc
  · rcases List.mem_append.mp hc with hc | hc
    · rcases timestampOf_chars now c hc with hd | rfl
      · left
        unfold Char.isAlphanum
        simp [hd]
      · right; rfl
    · right
      simpa using hc
  · exact safePurposeOf_chars p c hc

lemma workspaceName_no_slash (now : DateTime) (p : String) :
    '/' ∉ (workspaceName now p).data := by
  intro h
  rcases workspaceName_chars now p '/' h with halnum | heq
  · exact absurd halnum (by decide)
  · exact absurd heq (by decide)

lemma workspaceName_no_dot (now : DateTime) (p : String) :
    '.' ∉ (workspaceName now p).data := by
  intro h
  rcases workspaceName_chars now p '.' h with halnum | heq
  · exact absurd halnum (by decide)
  · exact absurd heq (by decide)

lemma workspaceName_no_backslash (now : DateTime) (p : String) :
    '\\' ∉ (workspaceName now p).data := by
  intro h
  rcases workspaceName_chars now p '\\' h with halnum | heq
  · exact absurd halnum (by decide)
  · exact absurd heq (by decide)

lemma workspaceName_ne_nil (now : DateTime) (p : String) :
    (workspaceName now p).data ≠ [] := by
  unfold workspaceName
  simp only [String.data_append]
  intro h
  have : '_' ∈ (timestampOf now).data ++ ("_" : String).data ++ (safePurposeOf p).data := by
    apply List.mem_append_left
    apply List.mem_append_right
    simp
  rw [h] at this
  cases this

lemma splitSlash_eq_of_no_slash (cs : List Char) (h : '/' ∉ cs) :
    splitSlash cs = [cs] := by
  induction cs with
  | nil => rfl
  | cons c rest ih =>
    have hc : ¬ c = '/' := fun he => h (he ▸ List.mem_cons_self c rest)
    have hr : '/' ∉ rest := fun hm => h (List.mem_cons_of_mem c hm)
    rw [splitSlash, if_neg hc, ih hr]

lemma pathComponents_single (s : String) (h : '/' ∉ s.data) (h2 : s.data ≠ []) :
    pathComponents s = [s] := by
  unfold pathComponents
  rw [splitSlash_eq_of_no_slash s.data h]
  simp [h2]

lemma pyJoin_single (base : FsPath) (s : String) (h : '/' ∉ s.data)
    (h2 : s.data ≠ []) : pyJoin base s = base ++ [s] := by
  unfold pyJoin
  have hne : s.data.head? ≠ some '/' := by
    intro habs
    apply h
    rcases hd : s.data with _ | ⟨c, cs⟩
    · rw [hd] at habs; cases habs
    · rw [hd] at habs
      simp only [List.head?_cons, Option.some.injEq] at habs
      simp [habs]
  rw [if_neg hne, pathComponents_single s h h2]

lemma protoDirOf_eq (home : FsPath) (now : DateTime) (p : String) :
    protoDirOf home now p = protoRoot home ++ [workspaceName now p] :=
  pyJoin_single _ _ (workspaceName_no_slash now p) (workspaceName_ne_nil now p)

lemma outputDirOf_eq (home : FsPath) (now : DateTime) (p : String) :
    outputDirOf home now p = protoRoot home ++ [workspaceName now p, "outputs"] := by
  unfold outputDirOf
  rw [pyJoin_single _ _ (by decide) (by decide), protoDirOf_eq]
  simp

lemma scriptPathOf_eq (home : FsPath) (now : DateTime) (p : String) :
    scriptPathOf home now p = protoRoot home ++ [workspaceName now p, "script.py"] := by
  unfold scriptPathOf
  rw [pyJoin_single _ _ (by decide) (by decide), protoDirOf_eq]
  simp

/-! ## Filesystem lemmas -/

lemma dirs_writeFile (fs : FS) (p : FsPath) (c : String) :
    (writeFile fs p c).dirs = fs.dirs := rfl

lemma files_mkdirP (fs : FS) (p : FsPath) :
    (mkdirP fs p).files = fs.files := rfl

lemma mem_dirs_mkdirP_of_mem (fs : FS) (p q : FsPath) (h : q ∈ fs.dirs) :
    q ∈ (mkdirP fs p).dirs := by
  unfold mkdirP
  simp only [List.mem_append]
  exact Or.inl h

lemma self_mem_ancestors (p : FsPath) (h : p ≠ []) : p ∈ ancestors p := by
  unfold ancestors
  apply List.mem_map.mpr
  refine ⟨p.length - 1, ?_, ?_⟩
  · simp only [List.mem_range]
    have : p.length ≠ 0 := fun he => h (List.length_eq_zero.mp he)
    omega
  · have : p.length ≠ 0 := fun he => h (List.length_eq_zero.mp he)
    have hlen : p.length - 1 + 1 = p.length := by omega
    rw [hlen]
    exact List.take_length p

lemma mem_dirs_mkdirP_of_mem_ancestors (fs : FS) (p q : FsPath)
    (h : q ∈ ancestors p) : q ∈ (mkdirP fs p).dirs := by
  unfold mkdirP
  simp only [List.mem_append, List.mem_filter]
  by_cases hq : q ∈ fs.dirs
  · exact Or.inl hq
  · exact Or.inr ⟨h, by simpa using hq⟩

lemma mem_dirs_mkdirP_self (fs : FS) (p : FsPath) (h : p ≠ []) :
    p ∈ (mkdirP fs p).dirs :=
  mem_dirs_mkdirP_of_mem_ancestors fs p p (self_mem_ancestors p h)

lemma readFile_writeFile_self (fs : FS) (p : FsPath) (c : String) :
    readFile (writeFile fs p c) p = some c := by
  unfold readFile writeFile
  simp

lemma find?_filter_ne {α : Type} [DecidableEq α] (l : List (α × String)) (p q : α)
    (h : p ≠ q) :
    (l.filter (fun e => e.1 ≠ q)).find? (fun e => e.1 = p) =
      l.find? (fun e => e.1 = p) := by
  induction l with
  | nil => rfl
  | cons e rest ih =>
    by_cases he : e.1 = q
    · have h1 : (decide (e.1 ≠ q)) = false := by simp [he]
      have h2 : (decide (e.1 = p)) = false := by
        simp only [decide_eq_false_iff_not]
        intro hp
        exact h (hp ▸ he)
      simp only [List.filter_cons, h1, if_neg, List.find?_cons, h2]
      simpa [h2] using ih
    · have h1 : (decide (e.1 ≠ q)) = true := by simp [he]
      simp only [List.filter_cons, h1, if_pos, List.find?_cons]
      by_cases hp : e.1 = p
      · simp [hp]
      · have h2 : (decide (e.1 = p)) = false := by simp [hp]
        simp only [h2]
        exact ih

lemma readFile_writeFile_ne (fs : FS) (p q : FsPath) (c : String) (h : p ≠ q) :
    readFile (writeFile fs q c) p = readFile fs p := by
  unfold readFile writeFile
  simp only [List.find?_cons]
  have h2 : (decide ((q, c).1 = p)) = false := by
    simp only [decide_eq_false_iff_not]
    exact fun he => h he.symm
  simp only [h2]
  rw [find?_filter_ne fs.files p q h]

lemma dirs_foldl_writeFile (ws : List (FsPath × String)) (fs : FS) :
    (ws.foldl (fun s w => writeFile s w.1 w.2) fs).dirs = fs.dirs := by
  induction ws generalizing fs with
  | nil => rfl
  | cons w rest ih => simp only [List.foldl_cons]; rw [ih, dirs_writeFile]

lemma files_foldl_mkdirP (ds : List FsPath) (fs : FS) :
    (ds.foldl mkdirP fs).files = fs.files := by
  induction ds generalizing fs with
  | nil => rfl
  | cons d rest ih => simp only [List.foldl_cons]; rw [ih, files_mkdirP]

lemma mem_dirs_foldl_mkdirP (ds : List FsPath) (fs : FS) (q : FsPath)
    (h : q ∈ fs.dirs) : q ∈ (ds.foldl mkdirP fs).dirs := by
  induction ds generalizing fs with
  | nil => exact h
  | cons d rest ih =>
    simp only [List.foldl_cons]
    exact ih _ (mem_dirs_mkdirP_of_mem fs d q h)

lemma mem_dirs_applyScriptFx (fs : FS) (beh : ScriptBehavior) (q : FsPath)
    (h : q ∈ fs.dirs) : q ∈ (applyScriptFx fs beh).dirs := by
  unfold applyScriptFx
  rw [dirs_foldl_writeFile]
  exact mem_dirs_foldl_mkdirP _ _ _ h

lemma mem_keys_writeFile_self (fs : FS) (p : FsPath) (c : String) :
    p ∈ (writeFile fs p c).files.map Prod.fst := by
  unfold writeFile
  simp

lemma mem_keys_writeFile_of_mem (fs : FS) (p q : FsPath) (c : String)
    (h : p ∈ fs.files.map Prod.fst) :
    p ∈ (writeFile fs q c).files.map Prod.fst := by
  by_cases hpq : p = q
  · subst hpq; exact mem_keys_writeFile_self fs p c
  · unfold writeFile
    rcases List.mem_map.mp h with ⟨e, he, rfl⟩
    simp only [List.map_cons, List.mem_cons]
    right
    apply List.mem_map.mpr
    exact ⟨e, List.mem_filter.mpr ⟨he, by simpa using hpq⟩, rfl⟩

lemma mem_keys_foldl_writeFile_of_mem (ws : List (FsPath × String)) (fs : FS)
    (p : FsPath) (h : p ∈ fs.files.map Prod.fst) :
    p ∈ (ws.foldl (fun s w => writeFile s w.1 w.2) fs).files.map Prod.fst := by
  induction ws generalizing fs with
  | nil => exact h
  | cons w rest ih =>
    simp only [List.foldl_cons]
    exact ih _ (mem_keys_writeFile_of_mem fs p w.1 w.2 h)

lemma mem_keys_foldl_writeFile (ws : List (FsPath × String)) (fs : FS)
    (p : FsPath) (c : String) (h : (p, c) ∈ ws) :
    p ∈ (ws.foldl (fun s w => writeFile s w.1 w.2) fs).files.map Prod.fst := by
  induction ws generalizing fs with
  | nil => cases h
  | cons w rest ih =>
    simp only [List.foldl_cons]
    rcases List.mem_cons.mp h with rfl | hmem
    · exact mem_keys_foldl_writeFile_of_mem rest _ p
        (mem_keys_writeFile_self fs p c)
    · exact ih _ hmem

lemma mem_keys_applyScriptFx (fs : FS) (beh : ScriptBehavior) (p : FsPath)
    (c : String) (h : (p, c) ∈ beh.writes) :
    p ∈ (applyScriptFx fs beh).files.map Prod.fst := by
  unfold applyScriptFx
  exact mem_keys_foldl_writeFile beh.writes _ p c h

lemma readFile_eq_of_files_eq (fs fs' : FS) (p : FsPath)
    (h : fs.files = fs'.files) : readFile fs p = readFile fs' p := by
  unfold readFile
  rw [h]

lemma readFile_foldl_writeFile_not_mem (ws : List (FsPath × String)) (fs : FS)
    (p : FsPath) (h : p ∉ ws.map Prod.fst) :
    readFile (ws.foldl (fun s w => writeFile s w.1 w.2) fs) p = readFile fs p := by
  induction ws generalizing fs with
  | nil => rfl
  | cons w rest ih =>
    simp only [List.map_cons, List.mem_cons] at h
    push_neg at h
    simp only [List.foldl_cons]
    rw [ih _ h.2, readFile_writeFile_ne fs p w.1 w.2 h.1]

lemma readFile_applyScriptFx_not_mem (fs : FS) (beh : ScriptBehavior)
    (p : FsPath) (h : p ∉ beh.writes.map Prod.fst) :
    readFile (applyScriptFx fs beh) p = readFile fs p := by
  unfold applyScriptFx
  rw [readFile_foldl_writeFile_not_mem beh.writes _ p h]
  exact readFile_eq_of_files_eq _ _ _ (files_foldl_mkdirP beh.mkdirs fs)

lemma name_mem_listDirNames (fs : FS) (d : FsPath) (name : String)
    (h : (d ++ [name]) ∈ fs.files.map Prod.fst) :
    name ∈ listDirNames fs d := by
  unfold listDirNames
  apply List.mem_dedup.mpr
  apply List.mem_filterMap.mpr
  refine ⟨d ++ [name], List.mem_append.mpr (Or.inl h), ?_⟩
  have h1 : (d ++ [name]).take d.length = d := List.take_left d [name]
  have h2 : (d ++ [name]).length = d.length + 1 := by simp
  rw [if_pos ⟨h1, h2⟩]
  exact List.getLast?_concat d

/-! ## Environment lemmas -/

lemma envGet_envSet_self (e : Env) (k v : String) :
    envGet (envSet e k v) k = some v := by
  induction e with
  | nil => simp [envSet, envGet]
  | cons b rest ih =>
    by_cases hb : b.1 = k
    · unfold envSet
      rcases b with ⟨k', v'⟩
      simp only at hb
      rw [if_pos hb]
      simp [envGet]
    · unfold envSet
      rcases b with ⟨k', v'⟩
      simp only at hb
      rw [if_neg hb]
      unfold envGet
      simp only [List.find?_cons]
      have : (decide ((k', v').1 = k)) = false := by simpa using hb
      rw [this]
      exact ih

lemma envGet_envSet_ne (e : Env) (k k' v : String) (h : k' ≠ k) :
    envGet (envSet e k v) k' = envGet e k' := by
  induction e with
  | nil =>
    unfold envSet envGet
    have h1 : (decide ((k, v).1 = k')) = false := by
      simp only [decide_eq_false_iff_not]
      intro he
      exact h he.symm
    simp only [List.find?_cons, h1, List.find?_nil]
  | cons b rest ih =>
    rcases b with ⟨k₀, v₀⟩
    unfold envSet
    by_cases hb : k₀ = k
    · rw [if_pos hb]
      unfold envGet
      simp only [List.find?_cons]
      have h1 : (decide ((k, v).1 = k')) = false := by
        simp only [decide_eq_false_iff_not]
        intro he
        exact h he.symm
      have h2 : (decide ((k₀, v₀).1 = k')) = false := by
        simp only [decide_eq_false_iff_not]
        intro he
        exact h (he.symm.trans hb)
      rw [h1, h2]
    · rw [if_neg hb]
      unfold envGet
      simp only [List.find?_cons]
      by_cases hk : k₀ = k'
      · have : (decide ((k₀, v₀).1 = k')) = true := by simpa using hk
        rw [this]
      · have : (decide ((k₀, v₀).1 = k')) = false := by simpa using hk
        rw [this]
        exact ih

lemma envSet_eq_append_of_none (e : Env) (k v : String)
    (h : envGet e k = none) : envSet e k v = e ++ [(k, v)] := by
  induction e with
  | nil => rfl
  | cons b rest ih =>
    rcases b with ⟨k₀, v₀⟩
    unfold envGet at h
    simp only [List.find?_cons] at h
    by_cases hb : k₀ = k
    · exfalso
      have : (decide ((k₀, v₀).1 = k)) = true := by simpa using hb
      rw [this] at h
      cases h
    · have hd : (decide ((k₀, v₀).1 = k)) = false := by simpa using hb
      rw [hd] at h
      unfold envSet
      rw [if_neg hb, ih h]
      rfl

/-! ## Reduction lemmas for `forge_and_run` -/

/-- The filesystem as it stands after the three creation steps and the
script write, before the runner lookup. -/
def preparedFS (home : FsPath) (now : DateTime) (code purpose : String)
    (fs0 : FS) : FS :=
  writeFile
    (mkdirP (mkdirP fs0 (protoDirOf home now purpose)) (outputDirOf home now purpose))
    (scriptPathOf home now purpose) code

lemma forge_none_eq (home : FsPath) (now : DateTime) (environ : Env)
    (beh : ScriptBehavior) (code purpose : String) (fs0 : FS) :
    forge_and_run home now environ none beh code purpose fs0 =
      { fs := preparedFS home now code purpose fs0, call := none,
        reply := uvNotFoundError } := rfl

lemma forge_some_fs (home : FsPath) (now : DateTime) (environ : Env)
    (uv : String) (beh : ScriptBehavior) (code purpose : String) (fs0 : FS) :
    (forge_and_run home now environ (some uv) beh code purpose fs0).fs =
      applyScriptFx (preparedFS home now code purpose fs0) beh := by
  rcases beh with ⟨o, m, w⟩
  cases o <;> rfl

lemma forge_some_call (home : FsPath) (now : DateTime) (environ : Env)
    (uv : String) (beh : ScriptBehavior) (code purpose : String) (fs0 : FS) :
    (forge_and_run home now environ (some uv) beh code purpose fs0).call =
      some { argv := [uv, "run", pathToString (scriptPathOf home now purpose)],
             env := envSet environ "PROTOTYPE_OUTPUT_DIR"
               (pathToString (outputDirOf home now purpose)),
             cwd := protoDirOf home now purpose,
             timeoutSeconds := 180 } := by
  rcases beh with ⟨o, m, w⟩
  cases o <;> rfl

lemma forge_timeout_reply (home : FsPath) (now : DateTime) (environ : Env)
    (uv : String) (beh : ScriptBehavior) (code purpose : String) (fs0 : FS)
    (h : beh.outcome = RunOutcome.timedOut) :
    (forge_and_run home now environ (some uv) beh code purpose fs0).reply =
      timeoutError := by
  rcases beh with ⟨o, m, w⟩
  simp only at h
  subst h
  rfl

lemma forge_completed_reply (home : FsPath) (now : DateTime) (environ : Env)
    (uv : String) (beh : ScriptBehavior) (code purpose : String) (fs0 : FS)
    (rc : Int) (out err : String)
    (h : beh.outcome = RunOutcome.completed rc out err) :
    (forge_and_run home now environ (some uv) beh code purpose fs0).reply =
      joinLines (reportLines (protoDirOf home now purpose) rc out err
        (listDirNames (applyScriptFx (preparedFS home now code purpose fs0) beh)
          (outputDirOf home now purpose))) := by
  rcases beh with ⟨o, m, w⟩
  simp only at h
  subst h
  rfl

lemma protoDirOf_ne_nil (home : FsPath) (now : DateTime) (p : String) :
    protoDirOf home now p ≠ [] := by
  rw [protoDirOf_eq]
  simp

lemma prepared_proto_mem (home : FsPath) (now : DateTime)
    (code purpose : String) (fs0 : FS) :
    protoDirOf home now purpose ∈ (preparedFS home now code purpose fs0).dirs := by
  unfold preparedFS
  rw [dirs_writeFile]
  exact mem_dirs_mkdirP_of_mem _ _ _
    (mem_dirs_mkdirP_self fs0 _ (protoDirOf_ne_nil home now purpose))

lemma outputDirOf_ne_nil (home : FsPath) (now : DateTime) (p : String) :
    outputDirOf home now p ≠ [] := by
  rw [outputDirOf_eq]
  simp

lemma prepared_output_mem (home : FsPath) (now : DateTime)
    (code purpose : String) (fs0 : FS) :
    outputDirOf home now purpose ∈ (preparedFS home now code purpose fs0).dirs := by
  unfold preparedFS
  rw [dirs_writeFile]
  exact mem_dirs_mkdirP_self _ _ (outputDirOf_ne_nil home now purpose)

lemma prepared_script (home : FsPath) (now : DateTime)
    (code purpose : String) (fs0 : FS) :
    readFile (preparedFS home now code purpose fs0)
      (scriptPathOf home now purpose) = some code :=
  readFile_writeFile_self _ _ _

/-- One infix lemma for the joined report: every line is a substring of
the join. -/
lemma strContains_joinLines (lines : List String) (l : String)
    (h : l ∈ lines) : strContains (joinLines lines) l := by
  induction lines with
  | nil => cases h
  | cons a rest ih =>
    rcases List.mem_cons.mp h with rfl | hmem
    · cases rest with
      | nil => exact List.infix_refl _
      | cons b bs =>
        unfold joinLines strContains
        simp only [String.data_append]
        exact List.IsPrefix.isInfix ⟨("\n" ++ joinLines (b :: bs)).data, by simp⟩
    · cases rest with
      | nil => cases hmem
      | cons b bs =>
        have hsuff := ih hmem
        unfold joinLines strContains
        simp only [String.data_append]
        unfold strContains at hsuff
        exact hsuff.trans (List.IsSuffix.isInfix ⟨(a ++ "\n").data, by simp⟩)

/-- The report list written out flat: four unconditional lines, then
the standard-error block exactly when `err` is non-empty, then the
artifact listing exactly when `artifacts` is non-empty. -/
lemma reportLines_eq (proto : FsPath) (rc : Int) (out err : String)
    (arts : List String) :
    reportLines proto rc out err arts =
      ["🚀 Prototype Directory Created: " ++ pathToString proto,
       statusLine rc,
       "\n[Standard Output]",
       if out = "" then "(No output)" else out] ++
      (if err = "" then [] else ["\n[Standard Error]\n" ++ err]) ++
      (if arts = [] then [] else [artifactLine arts]) := by
  unfold reportLines
  by_cases he : err = "" <;> by_cases ha : arts = [] <;> simp [he, ha]

lemma statusLine_mem_reportLines (proto : FsPath) (rc : Int) (out err : String)
    (arts : List String) :
    statusLine rc ∈ reportLines proto rc out err arts := by
  rw [reportLines_eq]
  simp

lemma joinLines_starts_with_head (a b : String) (rest : List String)
    (pre : String) (h : pre.data <+: a.data) :
    pre.data <+: (joinLines (a :: b :: rest)).data := by
  have : joinLines (a :: b :: rest) = a ++ "\n" ++ joinLines (b :: rest) := rfl
  rw [this]
  simp only [String.data_append]
  exact h.trans ⟨("\n".data ++ (joinLines (b :: rest)).data), by simp⟩

lemma forge_proto_mem (home : FsPath) (now : DateTime) (environ : Env)
    (uvPath : Option String) (beh : ScriptBehavior) (code purpose : String)
    (fs0 : FS) :
    protoDirOf home now purpose ∈
      (forge_and_run home now environ uvPath beh code purpose fs0).fs.dirs := by
  cases uvPath with
  | none =>
    rw [forge_none_eq]
    exact prepared_proto_mem home now code purpose fs0
  | some uv =>
    rw [forge_some_fs]
    exact mem_dirs_applyScriptFx _ _ _ (prepared_proto_mem home now code purpose fs0)

lemma forge_script_readFile (home : FsPath) (now : DateTime) (environ : Env)
    (uvPath : Option String) (beh : ScriptBehavior) (code purpose : String)
    (fs0 : FS) (hw : scriptPathOf home now purpose ∉ beh.writes.map Prod.fst) :
    readFile (forge_and_run home now environ uvPath beh code purpose fs0).fs
      (scriptPathOf home now purpose) = some code := by
  cases uvPath with
  | none =>
    rw [forge_none_eq]
    exact prepared_script home now code purpose fs0
  | some uv =>
    rw [forge_some_fs, readFile_applyScriptFx_not_mem _ _ _ hw]
    exact prepared_script home now code purpose fs0

/-! ## Claims -/

/-- Stated from the spec's words, for comparison with the source's
`safePurposeOf`: "keeping only the characters that are alphanumeric,
space, or underscore; replacing every space with an underscore; and
truncating the result to at most 30 characters". -/
def specSanitizedPurpose (purpose : String) : String :=
  ⟨((purpose.data.filter
      (fun c => decide (c.isAlphanum = true ∨ c = ' ' ∨ c = '_'))).map
      (fun c => if c = ' ' then '_' else c)).take 30⟩

/-- C3: for every purpose string, the sanitized purpose used in the
workspace name equals the spec's description: keep only alphanumeric,
space and underscore characters, replace every space with an
underscore, truncate to at most 30 characters. -/
theorem sanitized_purpose_matches_spec (purpose : String) :
    safePurposeOf purpose = specSanitizedPurpose purpose := by
  have hf : purpose.data.filter allowedChar =
      purpose.data.filter
        (fun c => decide (c.isAlphanum = true ∨ c = ' ' ∨ c = '_')) := by
    apply List.filter_congr
    intro c _
    unfold allowedChar
    by_cases h1 : c.isAlphanum = true <;> by_cases h2 : c = ' ' <;>
      by_cases h3 : c = '_' <;> simp [h1, h2, h3]
  have hm : ∀ l : List Char,
      l.map (fun c => if c == ' ' then '_' else c) =
        l.map (fun c => if c = ' ' then '_' else c) := by
    intro l
    apply List.map_congr_left
    intro c _
    by_cases h : c = ' ' <;> simp [h]
  unfold safePurposeOf specSanitizedPurpose
  rw [hf, hm]

/-- C9: purpose strings that differ only in disallowed characters (their
subsequences of allowed characters coincide) sanitize to the same string
and give the same workspace-name purpose part; for the spec's example
pair "a/b" / "a_b" the sanitized strings agree up to underscores. -/
theorem sanitize_invariant_under_disallowed (now : DateTime) (p₁ p₂ : String)
    (h : p₁.data.filter allowedChar = p₂.data.filter allowedChar) :
    safePurposeOf p₁ = safePurposeOf p₂ ∧
    workspaceName now p₁ = workspaceName now p₂ ∧
    (safePurposeOf "a/b").data.filter (fun c => c != '_') =
      (safePurposeOf "a_b").data.filter (fun c => c != '_') := by
  have hs : safePurposeOf p₁ = safePurposeOf p₂ := by
    unfold safePurposeOf
    rw [h]
  refine ⟨hs, ?_, by decide⟩
  unfold workspaceName
  rw [hs]

/-- Witness for C9 at "a.b" and "a,b": both sanitize to "ab". -/
theorem sanitize_invariant_under_disallowed_witness :
    ("a.b" : String).data.filter allowedChar =
      ("a,b" : String).data.filter allowedChar ∧
    safePurposeOf "a.b" = safePurposeOf "a,b" := by
  have h : ("a.b" : String).data.filter allowedChar =
      ("a,b" : String).data.filter allowedChar := by decide
  exact ⟨h,
    (sanitize_invariant_under_disallowed ⟨2026, 1, 1, 0, 0, 0⟩ "a.b" "a,b" h).1⟩

/-- C10: for every purpose string the workspace name contains no path
separator, no dot and no backslash, so the workspace directory, its
`outputs` subdirectory and `script.py` all sit directly under the fixed
root: no purpose can cause creation outside the root. -/
theorem workspace_is_direct_child_of_root (home : FsPath) (now : DateTime)
    (purpose : String) :
    protoDirOf home now purpose =
      protoRoot home ++ [workspaceName now purpose] ∧
    outputDirOf home now purpose =
      protoRoot home ++ [workspaceName now purpose, "outputs"] ∧
    scriptPathOf home now purpose =
      protoRoot home ++ [workspaceName now purpose, "script.py"] ∧
    (∀ c ∈ (workspaceName now purpose).data, c ≠ '/' ∧ c ≠ '.' ∧ c ≠ '\\') := by
  refine ⟨protoDirOf_eq home now purpose, outputDirOf_eq home now purpose,
    scriptPathOf_eq home now purpose, ?_⟩
  intro c hc
  refine ⟨?_, ?_, ?_⟩
  · intro he
    exact workspaceName_no_slash now purpose (he ▸ hc)
  · intro he
    exact workspaceName_no_dot now purpose (he ▸ hc)
  · intro he
    exact workspaceName_no_backslash now purpose (he ▸ hc)

/-- Witness for C10 at a concrete home, time, and a traversal-shaped
purpose string `"../../etc"`. -/
theorem workspace_is_direct_child_of_root_witness :
    protoDirOf ["h"] ⟨2026, 1, 2, 3, 4, 5⟩ "../../etc" =
      protoRoot ["h"] ++ [workspaceName ⟨2026, 1, 2, 3, 4, 5⟩ "../../etc"] ∧
    ('e' ≠ '/' ∧ 'e' ≠ '.' ∧ 'e' ≠ '\\') :=
  ⟨(workspace_is_direct_child_of_root ["h"] ⟨2026, 1, 2, 3, 4, 5⟩ "../../etc").1,
   (workspace_is_direct_child_of_root ["h"] ⟨2026, 1, 2, 3, 4, 5⟩ "../../etc").2.2.2
     'e' (by decide)⟩

/-- C5: when the runner is absent from the search path, the call
returns the fixed "not found" error string, no subprocess is invoked,
and at that point the workspace directory, its `outputs` subdirectory
and the script file holding the code verbatim already exist (the script
write precedes the runner lookup). -/
theorem runner_missing_leaves_files (home : FsPath) (now : DateTime)
    (environ : Env) (beh : ScriptBehavior) (code purpose : String) (fs0 : FS) :
    (forge_and_run home now environ none beh code purpose fs0).reply =
      uvNotFoundError ∧
    (forge_and_run home now environ none beh code purpose fs0).call = none ∧
    protoDirOf home now purpose ∈
      (forge_and_run home now environ none beh code purpose fs0).fs.dirs ∧
    outputDirOf home now purpose ∈
      (forge_and_run home now environ none beh code purpose fs0).fs.dirs ∧
    readFile (forge_and_run home now environ none beh code purpose fs0).fs
      (scriptPathOf home now purpose) = some code := by
  rw [forge_none_eq]
  exact ⟨rfl, rfl, prepared_proto_mem home now code purpose fs0,
    prepared_output_mem home now code purpose fs0,
    prepared_script home now code purpose fs0⟩

/-- C4: when the subprocess times out, the call returns the fixed
timeout error string, which contains no status line and no artifact
listing; files the script wrote into the output directory before
termination are on disk but unreported. -/
theorem timeout_reply_fixed (home : FsPath) (now : DateTime) (environ : Env)
    (uv : String) (beh : ScriptBehavior) (code purpose : String) (fs0 : FS)
    (h : beh.outcome = RunOutcome.timedOut) :
    (forge_and_run home now environ (some uv) beh code purpose fs0).reply =
      timeoutError ∧
    ¬ strContains timeoutError "Success" ∧
    ¬ strContains timeoutError "Failed" ∧
    ¬ strContains timeoutError "📊 Status:" ∧
    ¬ strContains timeoutError "Generated Artifacts" ∧
    (∀ name content,
      (outputDirOf home now purpose ++ [name], content) ∈ beh.writes →
      name ∈ listDirNames
        (forge_and_run home now environ (some uv) beh code purpose fs0).fs
        (outputDirOf home now purpose)) := by
  refine ⟨forge_timeout_reply home now environ uv beh code purpose fs0 h,
    by decide, by decide, by decide, by decide, ?_⟩
  intro name content hw
  rw [forge_some_fs]
  exact name_mem_listDirNames _ _ _ (mem_keys_applyScriptFx _ beh _ content hw)

/-- Witness for C4: a concrete timed-out run that wrote `late.txt`
still answers with the fixed timeout string, while `late.txt` is on
disk in the output directory. -/
theorem timeout_reply_fixed_witness :
    (forge_and_run ["h"] ⟨2026, 1, 2, 3, 4, 5⟩ [] (some "uv")
        ⟨RunOutcome.timedOut, [],
         [(outputDirOf ["h"] ⟨2026, 1, 2, 3, 4, 5⟩ "p" ++ ["late.txt"], "x")]⟩
        "c" "p" ⟨[], []⟩).reply = timeoutError ∧
    "late.txt" ∈ listDirNames
      (forge_and_run ["h"] ⟨2026, 1, 2, 3, 4, 5⟩ [] (some "uv")
        ⟨RunOutcome.timedOut, [],
         [(outputDirOf ["h"] ⟨2026, 1, 2, 3, 4, 5⟩ "p" ++ ["late.txt"], "x")]⟩
        "c" "p" ⟨[], []⟩).fs
      (outputDirOf ["h"] ⟨2026, 1, 2, 3, 4, 5⟩ "p") := by
  have h := timeout_reply_fixed ["h"] ⟨2026, 1, 2, 3, 4, 5⟩ [] "uv"
    ⟨RunOutcome.timedOut, [],
     [(outputDirOf ["h"] ⟨2026, 1, 2, 3, 4, 5⟩ "p" ++ ["late.txt"], "x")]⟩
    "c" "p" ⟨[], []⟩ rfl
  exact ⟨h.1, h.2.2.2.2.2 "late.txt" "x" (List.mem_singleton.mpr rfl)⟩

/-- C2: for a run that completes, the status line is part of the
report; exit code 0 puts "Success" in the reply, exit code N ≠ 0 puts
"Failed" with the literal code N in the reply, and the reply is the
normal report (it starts with the workspace header), not an error
string. -/
theorem exit_status_reported (home : FsPath) (now : DateTime) (environ : Env)
    (uv : String) (beh : ScriptBehavior) (code purpose : String) (fs0 : FS)
    (rc : Int) (out err : String)
    (h : beh.outcome = RunOutcome.completed rc out err) :
    strContains (forge_and_run home now environ (some uv) beh code purpose fs0).reply
      (statusLine rc) ∧
    (rc = 0 →
      strContains (forge_and_run home now environ (some uv) beh code purpose fs0).reply
        "Success") ∧
    (rc ≠ 0 →
      strContains (forge_and_run home now environ (some uv) beh code purpose fs0).reply
        ("Failed (Exit Code: " ++ toString rc ++ ")")) ∧
    ("🚀 Prototype Directory Created: " : String).data <+:
      (forge_and_run home now environ (some uv) beh code purpose fs0).reply.data := by
  rw [forge_completed_reply home now environ uv beh code purpose fs0 rc out err h]
  have hstat : strContains
      (joinLines (reportLines (protoDirOf home now purpose) rc out err
        (listDirNames (applyScriptFx (preparedFS home now code purpose fs0) beh)
          (outputDirOf home now purpose))))
      (statusLine rc) :=
    strContains_joinLines _ _ (statusLine_mem_reportLines _ _ _ _ _)
  refine ⟨hstat, ?_, ?_, ?_⟩
  · intro hrc
    subst hrc
    have hsub : ("Success" : String).data <:+: (statusLine 0).data := by decide
    exact hsub.trans hstat
  · intro hrc
    have hsub : ("Failed (Exit Code: " ++ toString rc ++ ")").data <:+:
        (statusLine rc).data := by
      unfold statusLine
      rw [if_neg hrc]
      simp only [String.data_append]
      exact (List.suffix_append _ _).isInfix
    exact hsub.trans hstat
  · rw [reportLines_eq]
    simp only [List.cons_append]
    apply joinLines_starts_with_head
    exact ⟨(pathToString (protoDirOf home now purpose)).data, by simp⟩

/-- Witness for C2: a concrete run exiting 3 yields a reply containing
"Failed (Exit Code: 3)". -/
theorem exit_status_reported_witness :
    strContains
      (forge_and_run ["h"] ⟨2026, 1, 2, 3, 4, 5⟩ [] (some "uv")
        ⟨RunOutcome.completed 3 "" "", [], []⟩ "c" "p" ⟨[], []⟩).reply
      ("Failed (Exit Code: " ++ toString (3 : Int) ++ ")") :=
  (exit_status_reported ["h"] ⟨2026, 1, 2, 3, 4, 5⟩ [] "uv"
    ⟨RunOutcome.completed 3 "" "", [], []⟩ "c" "p" ⟨[], []⟩ 3 "" "" rfl).2.2.1
    (by decide)

/-- C6: on the completed path, the standard-output block (report
element 3) is the captured stdout or the placeholder when stdout is
empty; the standard-error section appears (verbatim) exactly when
stderr is non-empty, and with empty stderr the report consists of the
four base lines plus at most the artifact listing. -/
theorem stdout_stderr_blocks (home : FsPath) (now : DateTime) (environ : Env)
    (uv : String) (beh : ScriptBehavior) (code purpose : String) (fs0 : FS)
    (rc : Int) (out err : String)
    (h : beh.outcome = RunOutcome.completed rc out err) :
    (forge_and_run home now environ (some uv) beh code purpose fs0).reply =
      joinLines (reportLines (protoDirOf home now purpose) rc out err
        (listDirNames (forge_and_run home now environ (some uv) beh code purpose fs0).fs
          (outputDirOf home now purpose))) ∧
    (reportLines (protoDirOf home now purpose) rc out err
      (listDirNames (forge_and_run home now environ (some uv) beh code purpose fs0).fs
        (outputDirOf home now purpose)))[3]? =
      some (if out = "" then "(No output)" else out) ∧
    (err ≠ "" →
      strContains (forge_and_run home now environ (some uv) beh code purpose fs0).reply
        ("\n[Standard Error]\n" ++ err)) ∧
    (err = "" →
      reportLines (protoDirOf home now purpose) rc out err
        (listDirNames (forge_and_run home now environ (some uv) beh code purpose fs0).fs
          (outputDirOf home now purpose)) =
      ["🚀 Prototype Directory Created: " ++ pathToString (protoDirOf home now purpose),
       statusLine rc,
       "\n[Standard Output]",
       if out = "" then "(No output)" else out] ++
      (if (listDirNames (forge_and_run home now environ (some uv) beh code purpose fs0).fs
            (outputDirOf home now purpose)) = [] then []
       else [artifactLine (listDirNames
         (forge_and_run home now environ (some uv) beh code purpose fs0).fs
         (outputDirOf home now purpose))])) := by
  rw [forge_some_fs home now environ uv beh code purpose fs0]
  refine ⟨forge_completed_reply home now environ uv beh code purpose fs0 rc out err h,
    ?_, ?_, ?_⟩
  · rw [reportLines_eq]
    simp
  · intro he
    rw [forge_completed_reply home now environ uv beh code purpose fs0 rc out err h]
    apply strContains_joinLines
    rw [reportLines_eq]
    simp [he]
  · intro he
    rw [reportLines_eq]
    simp [he]

/-- Witness for C6: a concrete run with stderr "boom" puts the verbatim
standard-error section into the reply. -/
theorem stdout_stderr_blocks_witness :
    strContains
      (forge_and_run ["h"] ⟨2026, 1, 2, 3, 4, 5⟩ [] (some "uv")
        ⟨RunOutcome.completed 0 "hi" "boom", [], []⟩ "c" "p" ⟨[], []⟩).reply
      ("\n[Standard Error]\n" ++ "boom") :=
  (stdout_stderr_blocks ["h"] ⟨2026, 1, 2, 3, 4, 5⟩ [] "uv"
    ⟨RunOutcome.completed 0 "hi" "boom", [], []⟩ "c" "p" ⟨[], []⟩ 0 "hi" "boom"
    rfl).2.2.1 (by decide)

/-- C7 fails as stated: if the inherited environment already binds
`PROTOTYPE_OUTPUT_DIR`, the child environment is not the inherited one
extended by one additional variable — the existing binding is
overwritten in place. -/
theorem child_env_extension_counterexample :
    ((forge_and_run ["h"] ⟨2026, 1, 2, 3, 4, 5⟩
        [("PROTOTYPE_OUTPUT_DIR", "elsewhere")] (some "uv")
        ⟨RunOutcome.completed 0 "" "", [], []⟩ "c" "p" ⟨[], []⟩).call.map
      ChildCall.env) ≠
    some ([("PROTOTYPE_OUTPUT_DIR", "elsewhere")] ++
      [("PROTOTYPE_OUTPUT_DIR",
        pathToString (outputDirOf ["h"] ⟨2026, 1, 2, 3, 4, 5⟩ "p"))]) := by
  decide

/-- C7 (amended): the child environment binds the output-directory
variable to the absolute output path, leaves every other inherited
variable unchanged, and is the inherited environment extended by
exactly that one binding whenever the variable was not already
inherited. -/
theorem child_env_sets_output_dir (home : FsPath) (now : DateTime)
    (environ : Env) (uv : String) (beh : ScriptBehavior)
    (code purpose : String) (fs0 : FS) (c : ChildCall)
    (h : (forge_and_run home now environ (some uv) beh code purpose fs0).call =
      some c) :
    envGet c.env "PROTOTYPE_OUTPUT_DIR" =
      some (pathToString (outputDirOf home now purpose)) ∧
    (∀ k, k ≠ "PROTOTYPE_OUTPUT_DIR" → envGet c.env k = envGet environ k) ∧
    (envGet environ "PROTOTYPE_OUTPUT_DIR" = none →
      c.env = environ ++
        [("PROTOTYPE_OUTPUT_DIR", pathToString (outputDirOf home now purpose))]) := by
  rw [forge_some_call] at h
  have hc := Option.some.inj h
  subst hc
  refine ⟨envGet_envSet_self environ _ _, ?_, ?_⟩
  · intro k hk
    exact envGet_envSet_ne environ _ k _ hk
  · intro hnone
    exact envSet_eq_append_of_none environ _ _ hnone

/-- Witness for C7 (amended) at a concrete inherited environment
`[("PATH", "/bin")]`. -/
theorem child_env_sets_output_dir_witness :
    envGet
      (envSet [("PATH", "/bin")] "PROTOTYPE_OUTPUT_DIR"
        (pathToString (outputDirOf ["h"] ⟨2026, 1, 2, 3, 4, 5⟩ "p")))
      "PROTOTYPE_OUTPUT_DIR" =
    some (pathToString (outputDirOf ["h"] ⟨2026, 1, 2, 3, 4, 5⟩ "p")) :=
  (child_env_sets_output_dir ["h"] ⟨2026, 1, 2, 3, 4, 5⟩ [("PATH", "/bin")]
    "uv" ⟨RunOutcome.completed 0 "" "", [], []⟩ "c" "p" ⟨[], []⟩
    { argv := ["uv", "run",
        pathToString (scriptPathOf ["h"] ⟨2026, 1, 2, 3, 4, 5⟩ "p")],
      env := envSet [("PATH", "/bin")] "PROTOTYPE_OUTPUT_DIR"
        (pathToString (outputDirOf ["h"] ⟨2026, 1, 2, 3, 4, 5⟩ "p")),
      cwd := protoDirOf ["h"] ⟨2026, 1, 2, 3, 4, 5⟩ "p",
      timeoutSeconds := 180 }
    (forge_some_call ["h"] ⟨2026, 1, 2, 3, 4, 5⟩ [("PATH", "/bin")] "uv"
      ⟨RunOutcome.completed 0 "" "", [], []⟩ "c" "p" ⟨[], []⟩)).1

/-- C1: on a completed run, every file the script wrote directly into
the output directory has its name in the artifact listing; the reply is
the joined report, and the report is the listing-free report with the
artifact line appended exactly when the output directory has entries
(names one level deep). -/
theorem generated_artifacts_listed (home : FsPath) (now : DateTime)
    (environ : Env) (uv : String) (beh : ScriptBehavior)
    (code purpose : String) (fs0 : FS) (rc : Int) (out err : String)
    (h : beh.outcome = RunOutcome.completed rc out err) :
    (forge_and_run home now environ (some uv) beh code purpose fs0).reply =
      joinLines (reportLines (protoDirOf home now purpose) rc out err
        (listDirNames (forge_and_run home now environ (some uv) beh code purpose fs0).fs
          (outputDirOf home now purpose))) ∧
    (∀ name content,
      (outputDirOf home now purpose ++ [name], content) ∈ beh.writes →
      name ∈ listDirNames
        (forge_and_run home now environ (some uv) beh code purpose fs0).fs
        (outputDirOf home now purpose)) ∧
    reportLines (protoDirOf home now purpose) rc out err
      (listDirNames (forge_and_run home now environ (some uv) beh code purpose fs0).fs
        (outputDirOf home now purpose)) =
      reportLines (protoDirOf home now purpose) rc out err [] ++
        (if (listDirNames
              (forge_and_run home now environ (some uv) beh code purpose fs0).fs
              (outputDirOf home now purpose)) = [] then []
         else [artifactLine (listDirNames
           (forge_and_run home now environ (some uv) beh code purpose fs0).fs
           (outputDirOf home now purpose))]) := by
  rw [forge_some_fs home now environ uv beh code purpose fs0]
  refine ⟨forge_completed_reply home now environ uv beh code purpose fs0 rc out err h,
    ?_, ?_⟩
  · intro name content hw
    exact name_mem_listDirNames _ _ _ (mem_keys_applyScriptFx _ beh _ content hw)
  · rw [reportLines_eq, reportLines_eq]
    simp

/-- Witness for C1: a concrete run that wrote `a.txt` into the output
directory lists `a.txt` among the artifacts. -/
theorem generated_artifacts_listed_witness :
    "a.txt" ∈ listDirNames
      (forge_and_run ["h"] ⟨2026, 1, 2, 3, 4, 5⟩ [] (some "uv")
        ⟨RunOutcome.completed 0 "" "", [],
         [(outputDirOf ["h"] ⟨2026, 1, 2, 3, 4, 5⟩ "p" ++ ["a.txt"], "data")]⟩
        "c" "p" ⟨[], []⟩).fs
      (outputDirOf ["h"] ⟨2026, 1, 2, 3, 4, 5⟩ "p") :=
  (generated_artifacts_listed ["h"] ⟨2026, 1, 2, 3, 4, 5⟩ [] "uv"
    ⟨RunOutcome.completed 0 "" "", [],
     [(outputDirOf ["h"] ⟨2026, 1, 2, 3, 4, 5⟩ "p" ++ ["a.txt"], "data")]⟩
    "c" "p" ⟨[], []⟩ 0 "" "" rfl).2.1 "a.txt" "data" (List.mem_singleton.mpr rfl)

/-- C8: two calls in the same second whose purposes sanitize equally
derive the identical workspace and script paths; after the first call
the workspace directory exists, so the second call's
`mkdir(exist_ok=True)` succeeds (where `exist_ok=False` would fail),
and the second call replaces the script file content with its own code
— no collision detection. -/
theorem same_second_same_purpose_overwrites (home : FsPath) (now : DateTime)
    (e₁ e₂ : Env) (u₁ u₂ : Option String) (b₁ b₂ : ScriptBehavior)
    (code₁ code₂ p₁ p₂ : String) (fs0 : FS)
    (hsafe : safePurposeOf p₁ = safePurposeOf p₂)
    (hw₁ : scriptPathOf home now p₁ ∉ b₁.writes.map Prod.fst)
    (hw₂ : scriptPathOf home now p₂ ∉ b₂.writes.map Prod.fst) :
    protoDirOf home now p₁ = protoDirOf home now p₂ ∧
    scriptPathOf home now p₁ = scriptPathOf home now p₂ ∧
    protoDirOf home now p₂ ∈
      (forge_and_run home now e₁ u₁ b₁ code₁ p₁ fs0).fs.dirs ∧
    mkdirChecked (forge_and_run home now e₁ u₁ b₁ code₁ p₁ fs0).fs
      (protoDirOf home now p₂) true =
      some (mkdirP (forge_and_run home now e₁ u₁ b₁ code₁ p₁ fs0).fs
        (protoDirOf home now p₂)) ∧
    mkdirChecked (forge_and_run home now e₁ u₁ b₁ code₁ p₁ fs0).fs
      (protoDirOf home now p₂) false = none ∧
    readFile (forge_and_run home now e₁ u₁ b₁ code₁ p₁ fs0).fs
      (scriptPathOf home now p₁) = some code₁ ∧
    readFile (forge_and_run home now e₂ u₂ b₂ code₂ p₂
        (forge_and_run home now e₁ u₁ b₁ code₁ p₁ fs0).fs).fs
      (scriptPathOf home now p₂) = some code₂ := by
  have hproto : protoDirOf home now p₁ = protoDirOf home now p₂ := by
    unfold protoDirOf workspaceName
    rw [hsafe]
  have hscript : scriptPathOf home now p₁ = scriptPathOf home now p₂ := by
    unfold scriptPathOf
    rw [hproto]
  have hmem : protoDirOf home now p₂ ∈
      (forge_and_run home now e₁ u₁ b₁ code₁ p₁ fs0).fs.dirs := by
    rw [← hproto]
    exact forge_proto_mem home now e₁ u₁ b₁ code₁ p₁ fs0
  refine ⟨hproto, hscript, hmem, by simp [mkdirChecked], ?_, ?_, ?_⟩
  · simp [mkdirChecked, hmem]
  · exact forge_script_readFile home now e₁ u₁ b₁ code₁ p₁ fs0 hw₁
  · exact forge_script_readFile home now e₂ u₂ b₂ code₂ p₂ _ hw₂

/-- Witness for C8: purposes "a b" and "a_b" in the same second with
codes "one" and "two" — the paths coincide and the surviving script
content is "two". -/
theorem same_second_same_purpose_overwrites_witness :
    protoDirOf ["h"] ⟨2026, 1, 2, 3, 4, 5⟩ "a b" =
      protoDirOf ["h"] ⟨2026, 1, 2, 3, 4, 5⟩ "a_b" ∧
    readFile (forge_and_run ["h"] ⟨2026, 1, 2, 3, 4, 5⟩ [] (some "uv")
        ⟨RunOutcome.completed 0 "" "", [], []⟩ "two" "a_b"
        (forge_and_run ["h"] ⟨2026, 1, 2, 3, 4, 5⟩ [] (some "uv")
          ⟨RunOutcome.completed 0 "" "", [], []⟩ "one" "a b" ⟨[], []⟩).fs).fs
      (scriptPathOf ["h"] ⟨2026, 1, 2, 3, 4, 5⟩ "a_b") = some "two" := by
  have h := same_second_same_purpose_overwrites ["h"] ⟨2026, 1, 2, 3, 4, 5⟩
    [] [] (some "uv") (some "uv")
    ⟨RunOutcome.completed 0 "" "", [], []⟩ ⟨RunOutcome.completed 0 "" "", [], []⟩
    "one" "two" "a b" "a_b" ⟨[], []⟩ (by decide) (by simp) (by simp)
  exact ⟨h.1, h.2.2.2.2.2.2⟩

end HiddenPrototype
